import Mathlib

/-!
Verification development for the givabit gated-link server.

The development shallowly embeds the link-lifecycle core of the server:
the `GatedLinks` relational table and its queries (`src/database.js`) and
the request handlers that orchestrate ledger calls, store writes and
enrichment caching (`src/index.js`).

Modelling conventions:
* the PostgreSQL table is a list of rows plus a `nextId` counter standing
  for the `SERIAL` id sequence (ids are assigned on insert and never
  reused);
* timestamps (`TIMESTAMPTZ`) are natural numbers; every mutating store
  operation receives the current time `now` and the `updated_at` trigger
  is applied at each write;
* the blockchain client calls (`createLinkOnChain`,
  `setLinkActivityOnChain`) are external collaborators: a handler receives
  the outcome of the call it would make as an `Except String String`
  (error message, or the confirmed transaction hash), and handlers report
  how many ledger or producer calls they performed so that claims about
  calls never being attempted are statable;
* fallible database statements return `Except DbError`; a transaction
  that fails is rolled back, which the embedding renders by the caller
  keeping the unchanged table;
* JavaScript string falsiness is modelled explicitly: the empty string is
  the only falsy string, `null`/`undefined` are `Option.none`.
-/

namespace Givabit

/-- Generated social post object as built in the social handler:
`{ text, generated_at, model_used }`. -/
structure Post where
  text : String
  generated_at : Nat
  model_used : String
deriving Repr, DecidableEq

/-- Value of the `ai_social_posts` JSON column: an association of
platform name to the list of generated posts, mirroring the object built
by the `reduce` fan-in of the social handler. -/
abbrev Posts := List (String × List Post)

/-- Record produced by a metadata producer (`getYoutubeVideoDetails` or
`getGenericPageMetadata`): the optional enrichment fields that the
`/metadata` handler merges into the stored row. -/
structure Extracted where
  title : Option String
  description : Option String
  author_name : Option String
  author_profile_picture_url : Option String
  content_vignette_url : Option String
  publication_date : Option Nat
  extracted_metadata : Option String
deriving Repr, DecidableEq

/-- Producer record with every field absent. -/
def Extracted.empty : Extracted :=
  ⟨none, none, none, none, none, none, none⟩

/-- Row of the `GatedLinks` table (full column list of the migrated
schema in `src/database.js`). `creator_address` is `NOT NULL`; nullable
columns are `Option`s. -/
structure Row where
  id : Nat
  original_url : String
  link_hash : String
  buy_short_code : String
  access_short_code : String
  title : Option String
  creator_address : String
  price_in_erc20 : String
  tx_hash : Option String
  status_update_tx_hash : Option String
  is_active : Bool
  description : Option String
  author_name : Option String
  author_profile_picture_url : Option String
  content_vignette_url : Option String
  publication_date : Option Nat
  extracted_metadata : Option String
  ai_social_posts : Option Posts
  created_at : Nat
  updated_at : Nat
deriving Repr, DecidableEq

/-- The `GatedLinks` table: its rows plus the next value of the `SERIAL`
id sequence. -/
structure Table where
  rows : List Row
  nextId : Nat
deriving Repr, DecidableEq

/-- Freshly created table (the id sequence of PostgreSQL starts at 1). -/
def emptyTable : Table := ⟨[], 1⟩

/-- Constraint violations the embedded statements can raise. -/
inductive DbError where
  | uniqueViolation
  | notNullViolation
deriving Repr, DecidableEq

/-- JavaScript `String.prototype.toLowerCase` modelled characterwise
(addresses are ASCII hex strings). -/
def jsToLower (s : String) : String := ⟨s.data.map Char.toLower⟩

/-- The JavaScript expression `x ? x.toLowerCase() : null` used for
`creator_address` parameters: the empty string is the only falsy string. -/
def normalizeAddr (s : String) : Option String :=
  if s = "" then none else some (jsToLower s)

/-- Input object of `db.storeGatedLink` (the `linkData` fields that the
INSERT of the migrated `database.js` reads). -/
structure StoreInput where
  original_url : String
  link_hash : String
  buy_short_code : String
  access_short_code : String
  title : Option String
  creator_address : String
  price_in_erc20 : String
  tx_hash : Option String
  is_active : Option Bool
  description : Option String
  author_name : Option String
  author_profile_picture_url : Option String
  content_vignette_url : Option String
  publication_date : Option Nat
  extracted_metadata : Option String
deriving Repr, DecidableEq

/-- Row built by the INSERT of `storeGatedLink`: `creator_address` is the
already-normalized address, `status_update_tx_hash` defaults to NULL,
`ai_social_posts` is initialized to NULL, and `created_at`/`updated_at`
take the statement timestamp. -/
def insertedRow (d : StoreInput) (addr : String) (idv now : Nat) : Row :=
  { id := idv
    original_url := d.original_url
    link_hash := d.link_hash
    buy_short_code := d.buy_short_code
    access_short_code := d.access_short_code
    title := d.title
    creator_address := addr
    price_in_erc20 := d.price_in_erc20
    tx_hash := d.tx_hash
    status_update_tx_hash := none
    is_active := d.is_active.getD true
    description := d.description
    author_name := d.author_name
    author_profile_picture_url := d.author_profile_picture_url
    content_vignette_url := d.content_vignette_url
    publication_date := d.publication_date
    extracted_metadata := d.extracted_metadata
    ai_social_posts := none
    created_at := now
    updated_at := now }

/-- `db.storeGatedLink`: single INSERT INTO GatedLinks. The UNIQUE
constraints on `link_hash`, `buy_short_code` and `access_short_code` and
the NOT NULL constraint on `creator_address` can fail the statement; the
creator address is stored lowercased (`creator_address ? toLowerCase() :
null`); `is_active` defaults to true when undefined. Returns the new id. -/
def storeGatedLink (d : StoreInput) (t : Table) (now : Nat) :
    Except DbError (Table × Nat) :=
  match normalizeAddr d.creator_address with
  | none => .error .notNullViolation
  | some addr =>
    if t.rows.any (fun r => r.link_hash == d.link_hash) ||
        t.rows.any (fun r => r.buy_short_code == d.buy_short_code) ||
        t.rows.any (fun r => r.access_short_code == d.access_short_code) then
      .error .uniqueViolation
    else
      .ok (⟨t.rows ++ [insertedRow d addr t.nextId now], t.nextId + 1⟩, t.nextId)

/-- `db.getLinkByAccessShortCode`: SELECT * WHERE access_short_code = $1,
first row or null. -/
def getLinkByAccessShortCode (accessShortCode : String) (t : Table) : Option Row :=
  t.rows.find? (fun r => r.access_short_code == accessShortCode)

/-- `db.getLinkByBuyShortCode`: SELECT * WHERE buy_short_code = $1,
first row or null. -/
def getLinkByBuyShortCode (buyShortCode : String) (t : Table) : Option Row :=
  t.rows.find? (fun r => r.buy_short_code == buyShortCode)

/-- `db.getLinkByHash`: SELECT * WHERE link_hash = $1, first row or null. -/
def getLinkByHash (linkHash : String) (t : Table) : Option Row :=
  t.rows.find? (fun r => r.link_hash == linkHash)

/-- `db.updateLinkStatus`: UPDATE GatedLinks SET is_active = $1,
status_update_tx_hash = $2 WHERE link_hash = $3; the `updated_at` trigger
bumps the timestamp of every updated row. Returns the updated table and
the affected row count. -/
def updateLinkStatus (linkHash : String) (isActive : Bool)
    (statusUpdateTxHash : String) (t : Table) (now : Nat) : Table × Nat :=
  (⟨t.rows.map (fun r =>
      if r.link_hash == linkHash then
        { r with is_active := isActive
                 status_update_tx_hash := some statusUpdateTxHash
                 updated_at := now }
      else r), t.nextId⟩,
    (t.rows.filter (fun r => r.link_hash == linkHash)).length)

/-- `db.getLinksByCreator`: the queried address is lowercased before the
SELECT (`creatorAddress ? toLowerCase() : null`); comparing a column with
SQL NULL matches no row. The ORDER BY created_at DESC of the source is
not modelled (no claim concerns result ordering). -/
def getLinksByCreator (creatorAddress : String) (t : Table) : List Row :=
  match normalizeAddr creatorAddress with
  | none => []
  | some a => t.rows.filter (fun r => r.creator_address == a)

/-- Input object of `db.replaceGatedLinkByHash` (the `linkData` fields the
DELETE + INSERT transaction reads). -/
structure ReplaceInput where
  original_url : String
  link_hash : String
  buy_short_code : String
  access_short_code : String
  title : Option String
  creator_address : String
  price_in_erc20 : String
  tx_hash : Option String
  status_update_tx_hash : Option String
  is_active : Option Bool
  description : Option String
  author_name : Option String
  author_profile_picture_url : Option String
  content_vignette_url : Option String
  publication_date : Option Nat
  extracted_metadata : Option String
  created_at : Option Nat
  ai_social_posts : Option Posts
deriving Repr, DecidableEq

/-- Row built by the reinsert of `replaceGatedLinkByHash`: fresh `SERIAL`
id, normalized creator address, `created_at` preserved from the input
when present (`linkData.created_at ? new Date(linkData.created_at) :
new Date()`), `updated_at` from the insert default. -/
def replacedRow (d : ReplaceInput) (addr : String) (idv now : Nat) : Row :=
  { id := idv
    original_url := d.original_url
    link_hash := d.link_hash
    buy_short_code := d.buy_short_code
    access_short_code := d.access_short_code
    title := d.title
    creator_address := addr
    price_in_erc20 := d.price_in_erc20
    tx_hash := d.tx_hash
    status_update_tx_hash := d.status_update_tx_hash
    is_active := d.is_active.getD true
    description := d.description
    author_name := d.author_name
    author_profile_picture_url := d.author_profile_picture_url
    content_vignette_url := d.content_vignette_url
    publication_date := d.publication_date
    extracted_metadata := d.extracted_metadata
    ai_social_posts := d.ai_social_posts
    created_at := d.created_at.getD now
    updated_at := now }

/-- `db.replaceGatedLinkByHash`: BEGIN; DELETE FROM GatedLinks WHERE
link_hash = $1; INSERT the full row (fresh id, lowercased creator,
preserved tx references, preserved `created_at`, preserved
`ai_social_posts`); COMMIT. A constraint violation rolls the whole
transaction back, so the caller observes the unchanged table with the
error. -/
def replaceGatedLinkByHash (d : ReplaceInput) (t : Table) (now : Nat) :
    Except DbError (Table × Nat) :=
  let remaining := t.rows.filter (fun r => !(r.link_hash == d.link_hash))
  match normalizeAddr d.creator_address with
  | none => .error .notNullViolation
  | some addr =>
    if remaining.any (fun r => r.buy_short_code == d.buy_short_code) ||
        remaining.any (fun r => r.access_short_code == d.access_short_code) then
      .error .uniqueViolation
    else
      .ok (⟨remaining ++ [replacedRow d addr t.nextId now], t.nextId + 1⟩, t.nextId)

/-- `db.updateAISocialPosts`: UPDATE GatedLinks SET ai_social_posts = $1
WHERE buy_short_code = $2 RETURNING *; a zero row count yields null,
otherwise the updated row is returned; the `updated_at` trigger bumps the
timestamp of every updated row. -/
def updateAISocialPosts (buyShortCode : String) (aiSocialPosts : Option Posts)
    (t : Table) (now : Nat) : Table × Option Row :=
  match t.rows.find? (fun r => r.buy_short_code == buyShortCode) with
  | none => (t, none)
  | some r =>
    (⟨t.rows.map (fun x =>
        if x.buy_short_code == buyShortCode then
          { x with ai_social_posts := aiSocialPosts, updated_at := now }
        else x), t.nextId⟩,
      some { r with ai_social_posts := aiSocialPosts, updated_at := now })

/-! ## Request handlers (`src/index.js`) -/

/-- JavaScript falsiness of an optional request-body string: absent or
empty. -/
def falsyStr (o : Option String) : Bool :=
  match o with
  | none => true
  | some s => s == ""

/-- JavaScript `x || null` on a nullable string field: the empty string
collapses to null. -/
def jsOrNull (o : Option String) : Option String :=
  match o with
  | none => none
  | some s => if s = "" then none else some s

/-- Body of `POST /create-gated-link`. -/
structure CreateBody where
  url : Option String
  title : Option String
  priceInERC20 : Option String
  creatorAddress : Option String
  description : Option String
  authorName : Option String
  authorProfilePictureUrl : Option String
  contentVignetteUrl : Option String
  publicationDate : Option Nat
deriving Repr, DecidableEq

/-- Successful (201) response of `POST /create-gated-link`. The creator
address is echoed back exactly as supplied by the caller. -/
structure CreateResponse where
  linkId : String
  buyShortCode : String
  accessShortCode : String
  originalUrl : String
  title : Option String
  creatorAddress : String
  priceInERC20 : String
  transactionHash : String
  shareableBuyLink : String
  description : Option String
  authorName : Option String
  authorProfilePictureUrl : Option String
  contentVignetteUrl : Option String
  publicationDate : Option Nat
deriving Repr, DecidableEq

/-- Outcome of `POST /create-gated-link`: 400 on missing fields, 500 on a
failed ledger call, 500 on a failed store insert, 201 on success. -/
inductive CreateResult where
  | badRequest (msg : String)
  | ledgerFailed (details : String)
  | storeFailed (e : DbError)
  | created (resp : CreateResponse)
deriving Repr, DecidableEq

/-- Handler of `POST /create-gated-link`. `hashFn` stands for
`generateLinkHash` (keccak256 over the UTF-8 bytes of the URL),
`buyShortCode`/`accessShortCode` for the two independent `nanoid(7)`
draws, and `ledger` for the awaited outcome of `createLinkOnChain
(linkHash, creatorAddress, priceInERC20, true)`. The ledger call happens
strictly before the store insert; a ledger failure returns 500 without
touching the store; a store failure returns 500 after the ledger success. -/
def createGatedLink (hashFn : String → String) (baseUrl : String)
    (buyShortCode accessShortCode : String) (ledger : Except String String)
    (body : CreateBody) (t : Table) (now : Nat) : CreateResult × Table :=
  if falsyStr body.url || falsyStr body.priceInERC20 ||
      falsyStr body.creatorAddress then
    (.badRequest "Missing required fields: url, priceInERC20, creatorAddress", t)
  else
    let url := body.url.getD ""
    let linkHash := hashFn url
    match ledger with
    | .error e => (.ledgerFailed e, t)
    | .ok actualTxHash =>
      match storeGatedLink
          { original_url := url
            link_hash := linkHash
            buy_short_code := buyShortCode
            access_short_code := accessShortCode
            title := body.title
            creator_address := body.creatorAddress.getD ""
            price_in_erc20 := body.priceInERC20.getD ""
            tx_hash := some actualTxHash
            is_active := some true
            description := body.description
            author_name := body.authorName
            author_profile_picture_url := body.authorProfilePictureUrl
            content_vignette_url := body.contentVignetteUrl
            publication_date := body.publicationDate
            extracted_metadata := none } t now with
      | .error e => (.storeFailed e, t)
      | .ok (t2, _) =>
        (.created
          { linkId := linkHash
            buyShortCode := buyShortCode
            accessShortCode := accessShortCode
            originalUrl := url
            title := body.title
            creatorAddress := body.creatorAddress.getD ""
            priceInERC20 := body.priceInERC20.getD ""
            transactionHash := actualTxHash
            shareableBuyLink := baseUrl ++ "/buy/" ++ buyShortCode
            description := body.description
            authorName := body.authorName
            authorProfilePictureUrl := body.authorProfilePictureUrl
            contentVignetteUrl := body.contentVignetteUrl
            publicationDate := body.publicationDate }, t2)

/-- Outcome of `PATCH /links/:link_hash/status`: 400 on a non-boolean
body, 404 when the hash is unknown, 500 on a failed ledger call, 200 on
success. -/
inductive StatusResult where
  | badRequest
  | notFound
  | ledgerFailed (details : String)
  | ok (isActive : Bool) (transactionHash : String)
deriving Repr, DecidableEq

/-- Handler of `PATCH /links/:link_hash/status`. `isActive` is the parsed
body field (`none` when it is not a boolean); `ledger` is the awaited
outcome of `setLinkActivityOnChain(link_hash, isActive)`. The third
result component counts how many ledger calls the handler performed. -/
def patchLinkStatus (linkHash : String) (isActive : Option Bool)
    (ledger : Except String String) (t : Table) (now : Nat) :
    StatusResult × Table × Nat :=
  match isActive with
  | none => (.badRequest, t, 0)
  | some act =>
    match getLinkByHash linkHash t with
    | none => (.notFound, t, 0)
    | some _ =>
      match ledger with
      | .error e => (.ledgerFailed e, t, 1)
      | .ok actualUpdateTxHash =>
        let (t2, _) := updateLinkStatus linkHash act actualUpdateTxHash t now
        (.ok act actualUpdateTxHash, t2, 1)

/-! ### Metadata producers and the `/metadata` handler -/

/-- Catch wrapper of `getGenericPageMetadata`: `attempt` is the outcome
of the Playwright navigation and `page.evaluate` (its `.ok` value already
contains the `title || "Untitled Page"` defaulting done inside
`page.evaluate`); on failure the function degrades to a placeholder with
a title synthesized from the first 50 characters of the URL and a
description stating that extraction failed. -/
def getGenericPageMetadata (url : String) (attempt : Except String Extracted) :
    Extracted :=
  match attempt with
  | .ok metadata => metadata
  | .error errMsg =>
    { title := some ("Web Page at " ++ (url.take 50) ++ "...")
      description := some ("Could not fetch details: " ++ errMsg)
      author_name := none
      author_profile_picture_url := none
      content_vignette_url := none
      publication_date := none
      extracted_metadata := none }

/-- `getYoutubeVideoDetails`: `videoId` is the result of
`extractYoutubeVideoId` (the URL regex is abstracted as this parameter);
an unextractable id throws inside the try block, a missing API key
returns an early placeholder, and `apiResult` is the awaited outcome of
the `youtube.videos.list` call. The catch branch degrades to a
placeholder whose title names the video id (or `unknown_id`). -/
def getYoutubeVideoDetails (videoId : Option String) (apiKeyConfigured : Bool)
    (apiResult : Except String Extracted) : Extracted :=
  let attempt : Except String Extracted :=
    match videoId with
    | none => .error "Invalid YouTube URL or unable to extract video ID."
    | some vid =>
      if !apiKeyConfigured then
        .ok { title := some ("YouTube Video (ID: " ++ vid ++ ")")
              description := some "API key not configured to fetch full details."
              author_name := none
              author_profile_picture_url := none
              content_vignette_url := none
              publication_date := none
              extracted_metadata := none }
      else apiResult
  match attempt with
  | .ok metadata => metadata
  | .error errMsg =>
    { title := some ("YouTube Video (ID: " ++ (videoId.getD "unknown_id") ++ ")")
      description := some ("Could not fetch details: " ++ errMsg)
      author_name := none
      author_profile_picture_url := none
      content_vignette_url := none
      publication_date := none
      extracted_metadata := none }

/-- Merge step `updatedLinkData = { ...link, ... }` of the `/metadata`
handler: the freshly fetched data wins, except that a null or empty
fetched title keeps the stored title (`extractedData.title ||
link.title`). -/
def mergeMetadata (link : Row) (extractedData : Extracted) : Row :=
  { link with
    title :=
      match extractedData.title with
      | some s => if s = "" then link.title else some s
      | none => link.title
    description := extractedData.description
    author_name := extractedData.author_name
    author_profile_picture_url := extractedData.author_profile_picture_url
    content_vignette_url := extractedData.content_vignette_url
    publication_date := extractedData.publication_date
    extracted_metadata := extractedData.extracted_metadata }

/-- View of a row object as the `linkData` argument of
`replaceGatedLinkByHash` (the handlers pass a spread of the stored row). -/
def rowToReplaceInput (r : Row) : ReplaceInput :=
  { original_url := r.original_url
    link_hash := r.link_hash
    buy_short_code := r.buy_short_code
    access_short_code := r.access_short_code
    title := r.title
    creator_address := r.creator_address
    price_in_erc20 := r.price_in_erc20
    tx_hash := r.tx_hash
    status_update_tx_hash := r.status_update_tx_hash
    is_active := some r.is_active
    description := r.description
    author_name := r.author_name
    author_profile_picture_url := r.author_profile_picture_url
    content_vignette_url := r.content_vignette_url
    publication_date := r.publication_date
    extracted_metadata := r.extracted_metadata
    created_at := some r.created_at
    ai_social_posts := r.ai_social_posts }

/-- Body of the 200 response of `GET /metadata/:buy_short_code`
(`authorName` is `link.author_name || null`). -/
structure MetaResponse where
  linkId : String
  originalUrl : String
  title : Option String
  description : Option String
  authorName : Option String
  authorProfilePictureUrl : Option String
  contentVignetteUrl : Option String
  publicationDate : Option Nat
  creatorAddress : String
  priceInERC20 : String
  isActive : Bool
  buyShortCode : String
deriving Repr, DecidableEq

/-- Response object the `/metadata` handler builds from a row (used both
for the cached return and for the refreshed return). -/
def mkMetaResponse (r : Row) : MetaResponse :=
  { linkId := r.link_hash
    originalUrl := r.original_url
    title := r.title
    description := r.description
    authorName := jsOrNull r.author_name
    authorProfilePictureUrl := r.author_profile_picture_url
    contentVignetteUrl := r.content_vignette_url
    publicationDate := r.publication_date
    creatorAddress := r.creator_address
    priceInERC20 := r.price_in_erc20
    isActive := r.is_active
    buyShortCode := r.buy_short_code }

/-- Outcome of `GET /metadata/:buy_short_code`. `cached` and `refreshed`
are both 200 responses; `dbFailed` is the 500 raised when the atomic
replace fails. -/
inductive MetaResult where
  | notFound
  | cached (resp : MetaResponse)
  | refreshed (resp : MetaResponse)
  | dbFailed (e : DbError)
deriving Repr, DecidableEq

/-- Handler of `GET /metadata/:buy_short_code`. `fetch` is the selected
metadata producer (the source routes to `getYoutubeVideoDetails` or
`getGenericPageMetadata` by sniffing the URL shape; both are total
functions of the URL, and the routing is abstracted into this single
parameter). The cache policy: with `forceRefresh` false and a non-null
stored title, return the stored row as-is without any producer call or
store write; otherwise fetch, merge and atomically replace the whole
row. The third result component counts producer invocations. -/
def getMetadata (buyShortCode : String) (forceRefresh : Bool)
    (fetch : String → Extracted) (t : Table) (now : Nat) :
    MetaResult × Table × Nat :=
  match getLinkByBuyShortCode buyShortCode t with
  | none => (.notFound, t, 0)
  | some link =>
    if !forceRefresh && link.title.isSome then
      (.cached (mkMetaResponse link), t, 0)
    else
      let extractedData := fetch link.original_url
      let updatedLinkData := mergeMetadata link extractedData
      match replaceGatedLinkByHash (rowToReplaceInput updatedLinkData) t now with
      | .error e => (.dbFailed e, t, 1)
      | .ok (t2, _) => (.refreshed (mkMetaResponse updatedLinkData), t2, 1)

/-! ### The `/social` handler -/

/-- Fulfilled value of one per-platform generation task. -/
structure PlatformResult where
  platformName : String
  posts : List Post
deriving Repr, DecidableEq

/-- The five target platforms of the social handler. -/
def platforms : List String := ["X", "Instagram", "Facebook", "Telegram", "Discord"]

/-- One per-platform generation task. `attempt` models the awaited
`model.generateContent` call followed by `JSON.parse` of its text:
`.error` is a rejected promise (the AI call threw); `.ok none` is a
response that failed to parse or was not an array of strings (the task
fulfills with an empty posts list); `.ok (some texts)` is a valid JSON
array of post strings. -/
def platformGeneration (platform : String) (modelName : String) (now : Nat)
    (attempt : Except String (Option (List String))) :
    Except String PlatformResult :=
  match attempt with
  | .error e => .error e
  | .ok parsed =>
    let platformPostsTexts := parsed.getD []
    .ok { platformName := jsToLower platform
          posts := platformPostsTexts.map (fun postText =>
            { text := postText, generated_at := now, model_used := modelName }) }

/-- Fan-in `reduce` over `Promise.allSettled` results: fulfilled tasks
contribute their `(platformName, posts)` entry, rejected ones are skipped
(the platform names are pairwise distinct, so appending entries models
the object-key assignment of the source). -/
def aggregateSettled (results : List (Except String PlatformResult)) : Posts :=
  results.foldl (fun acc result =>
    match result with
    | .ok v => acc ++ [(v.platformName, v.posts)]
    | .error _ => acc) []

/-- Outcome of `GET /social/:buy_short_code`: 404 on an unknown code, 200
from cache, 500 when the Gemini key is missing, 500 when every platform
attempt failed, 500 when the persist step matched no row, 200 with the
freshly generated posts. -/
inductive SocialResult where
  | notFound
  | cached (socialPosts : Posts)
  | notConfigured
  | allFailed
  | updateMissed
  | generated (socialPosts : Posts)
deriving Repr, DecidableEq

/-- Handler of `GET /social/:buy_short_code`. With `forceRefresh` false
and a non-null `ai_social_posts` column the cached posts are returned;
otherwise one generation task per platform runs, the settled results are
aggregated, an empty aggregate is the all-platforms-failed 500, and a
non-empty aggregate is persisted via the column-level
`updateAISocialPosts`. -/
def getSocial (buyShortCode : String) (forceRefresh : Bool)
    (geminiConfigured : Bool) (modelName : String)
    (attempts : String → Except String (Option (List String)))
    (t : Table) (now : Nat) : SocialResult × Table :=
  match getLinkByBuyShortCode buyShortCode t with
  | none => (.notFound, t)
  | some link =>
    if !forceRefresh && link.ai_social_posts.isSome then
      (.cached (link.ai_social_posts.getD []), t)
    else if !geminiConfigured then
      (.notConfigured, t)
    else
      let settled := platforms.map (fun p =>
        platformGeneration p modelName now (attempts p))
      let generatedPosts := aggregateSettled settled
      if generatedPosts.isEmpty then
        (.allFailed, t)
      else
        match updateAISocialPosts buyShortCode (some generatedPosts) t now with
        | (t2, some _) => (.generated generatedPosts, t2)
        | (_, none) => (.updateMissed, t)

/-- Here follows the persist step the specification describes for the
social-copy workflow, stated in its words rather than taken from the
source: mutate the enrichment field by a full atomic record replace
(transactional delete-then-reinsert of the whole row under the same
`linkHash`), never a partial column update. It is compared against the
actual `updateAISocialPosts` persist step of the source. -/
def specSocialPersistReplace (buyShortCode : String) (aiSocialPosts : Option Posts)
    (t : Table) (now : Nat) : Option Table :=
  match getLinkByBuyShortCode buyShortCode t with
  | none => none
  | some r =>
    match replaceGatedLinkByHash
        (rowToReplaceInput { r with ai_social_posts := aiSocialPosts }) t now with
    | .ok (t2, _) => some t2
    | .error _ => none

/-! ## Basic facts about the embedded primitives -/

theorem charOfNat_toNat (n : Nat) (h : n.isValidChar) :
    (Char.ofNat n).toNat = n := by
  unfold Char.ofNat
  rw [dif_pos h]
  rfl

theorem charToLower_idem (c : Char) : c.toLower.toLower = c.toLower := by
  by_cases h : c.toNat ≥ 65 ∧ c.toNat ≤ 90
  · have hv : (c.toNat + 32).isValidChar := Or.inl (by omega)
    have ht : (Char.ofNat (c.toNat + 32)).toNat = c.toNat + 32 :=
      charOfNat_toNat _ hv
    simp only [Char.toLower, if_pos h]
    rw [if_neg]
    rw [ht]
    omega
  · simp only [Char.toLower, if_neg h]

theorem jsToLower_idem (s : String) : jsToLower (jsToLower s) = jsToLower s := by
  show String.mk ((s.data.map Char.toLower).map Char.toLower) =
    String.mk (s.data.map Char.toLower)
  rw [List.map_map]
  congr 1
  exact List.map_congr_left (fun c _ => charToLower_idem c)

theorem jsToLower_ne_empty {s : String} (h : s ≠ "") : jsToLower s ≠ "" := by
  intro hc
  have hd : s.data.map Char.toLower = ([] : List Char) := congrArg String.data hc
  rw [List.map_eq_nil_iff] at hd
  exact h (congrArg String.mk hd)

theorem normalizeAddr_of_ne {s : String} (h : s ≠ "") :
    normalizeAddr s = some (jsToLower s) := by
  simp [normalizeAddr, h]

/-! ## Table well-formedness

The invariants the schema enforces on every reachable table: the three
UNIQUE key columns determine the row, and every stored creator address is
a non-empty, already-lowercased string (§3 of the specification). -/

def WellFormed (t : Table) : Prop :=
  (∀ a ∈ t.rows, ∀ b ∈ t.rows, a.link_hash = b.link_hash → a = b) ∧
  (∀ a ∈ t.rows, ∀ b ∈ t.rows, a.buy_short_code = b.buy_short_code → a = b) ∧
  (∀ a ∈ t.rows, ∀ b ∈ t.rows, a.access_short_code = b.access_short_code → a = b) ∧
  (∀ r ∈ t.rows, r.creator_address ≠ "" ∧ jsToLower r.creator_address = r.creator_address)

instance (t : Table) : Decidable (WellFormed t) := by
  unfold WellFormed
  infer_instance

/-! ## Shape lemmas for the store operations -/

theorem storeGatedLink_ok_elim {d : StoreInput} {t : Table} {now : Nat}
    {t2 : Table} {i : Nat} (h : storeGatedLink d t now = .ok (t2, i)) :
    d.creator_address ≠ "" ∧
    (∀ r ∈ t.rows, r.link_hash ≠ d.link_hash ∧
      r.buy_short_code ≠ d.buy_short_code ∧
      r.access_short_code ≠ d.access_short_code) ∧
    t2.rows = t.rows ++ [insertedRow d (jsToLower d.creator_address) t.nextId now] ∧
    t2.nextId = t.nextId + 1 ∧ i = t.nextId := by
  by_cases hempty : d.creator_address = ""
  · simp [storeGatedLink, normalizeAddr, hempty] at h
  · rw [storeGatedLink, normalizeAddr_of_ne hempty] at h
    simp only at h
    split at h
    · simp at h
    · next hcond =>
      simp only [Except.ok.injEq, Prod.mk.injEq] at h
      simp only [Bool.or_eq_true, List.any_eq_true, beq_iff_eq, not_or,
        not_exists, not_and] at hcond
      refine ⟨hempty, ?_, ?_, ?_, ?_⟩
      · intro r hr
        exact ⟨hcond.1.1 r hr, hcond.1.2 r hr, hcond.2 r hr⟩
      · rw [← h.1]
      · rw [← h.1]
      · exact h.2.symm


theorem replaceGatedLinkByHash_ok_elim {d : ReplaceInput} {t : Table} {now : Nat}
    {t2 : Table} {i : Nat} (h : replaceGatedLinkByHash d t now = .ok (t2, i)) :
    d.creator_address ≠ "" ∧
    t2.rows = t.rows.filter (fun r => !(r.link_hash == d.link_hash)) ++
      [replacedRow d (jsToLower d.creator_address) t.nextId now] ∧
    t2.nextId = t.nextId + 1 ∧ i = t.nextId := by
  by_cases hempty : d.creator_address = ""
  · simp [replaceGatedLinkByHash, normalizeAddr, hempty] at h
  · rw [replaceGatedLinkByHash, normalizeAddr_of_ne hempty] at h
    simp only at h
    split at h
    · simp at h
    · simp only [Except.ok.injEq, Prod.mk.injEq] at h
      refine ⟨hempty, ?_, ?_, h.2.symm⟩
      · rw [← h.1]
      · rw [← h.1]

theorem replaceGatedLinkByHash_ok_intro (d : ReplaceInput) (t : Table) (now : Nat)
    (hne : d.creator_address ≠ "")
    (hbuy : ∀ r ∈ t.rows, r.link_hash ≠ d.link_hash →
      r.buy_short_code ≠ d.buy_short_code)
    (hacc : ∀ r ∈ t.rows, r.link_hash ≠ d.link_hash →
      r.access_short_code ≠ d.access_short_code) :
    replaceGatedLinkByHash d t now =
      .ok (⟨t.rows.filter (fun r => !(r.link_hash == d.link_hash)) ++
        [replacedRow d (jsToLower d.creator_address) t.nextId now],
        t.nextId + 1⟩, t.nextId) := by
  rw [replaceGatedLinkByHash, normalizeAddr_of_ne hne]
  simp only
  rw [if_neg]
  simp only [Bool.or_eq_true, List.any_eq_true, List.mem_filter,
    Bool.not_eq_true', beq_eq_false_iff_ne, beq_iff_eq, not_or, not_exists,
    not_and]
  constructor
  · rintro r ⟨hr, hrh⟩
    exact hbuy r hr hrh
  · rintro r ⟨hr, hrh⟩
    exact hacc r hr hrh

theorem wellFormed_insert {d : StoreInput} {t : Table} {now : Nat}
    {t2 : Table} {i : Nat} (wf : WellFormed t)
    (h : storeGatedLink d t now = .ok (t2, i)) : WellFormed t2 := by
  obtain ⟨hne, huniq, hrows, -, -⟩ := storeGatedLink_ok_elim h
  obtain ⟨wf1, wf2, wf3, wf4⟩ := wf
  rw [WellFormed, hrows]
  refine ⟨?_, ?_, ?_, ?_⟩
  · intro a ha b hb hab
    rcases List.mem_append.mp ha with ha | ha <;>
      rcases List.mem_append.mp hb with hb | hb
    · exact wf1 a ha b hb hab
    · rw [List.mem_singleton.mp hb] at hab
      exact absurd hab (by simpa [insertedRow] using (huniq a ha).1)
    · rw [List.mem_singleton.mp ha] at hab
      exact absurd hab.symm (by simpa [insertedRow] using (huniq b hb).1)
    · rw [List.mem_singleton.mp ha, List.mem_singleton.mp hb]
  · intro a ha b hb hab
    rcases List.mem_append.mp ha with ha | ha <;>
      rcases List.mem_append.mp hb with hb | hb
    · exact wf2 a ha b hb hab
    · rw [List.mem_singleton.mp hb] at hab
      exact absurd hab (by simpa [insertedRow] using (huniq a ha).2.1)
    · rw [List.mem_singleton.mp ha] at hab
      exact absurd hab.symm (by simpa [insertedRow] using (huniq b hb).2.1)
    · rw [List.mem_singleton.mp ha, List.mem_singleton.mp hb]
  · intro a ha b hb hab
    rcases List.mem_append.mp ha with ha | ha <;>
      rcases List.mem_append.mp hb with hb | hb
    · exact wf3 a ha b hb hab
    · rw [List.mem_singleton.mp hb] at hab
      exact absurd hab (by simpa [insertedRow] using (huniq a ha).2.2)
    · rw [List.mem_singleton.mp ha] at hab
      exact absurd hab.symm (by simpa [insertedRow] using (huniq b hb).2.2)
    · rw [List.mem_singleton.mp ha, List.mem_singleton.mp hb]
  · intro r hr
    rcases List.mem_append.mp hr with hr | hr
    · exact wf4 r hr
    · rw [List.mem_singleton.mp hr]
      exact ⟨by simpa [insertedRow] using jsToLower_ne_empty hne,
        by simpa [insertedRow] using jsToLower_idem d.creator_address⟩

theorem getLinkByBuyShortCode_some {code : String} {t : Table} {r : Row}
    (h : getLinkByBuyShortCode code t = some r) :
    r ∈ t.rows ∧ r.buy_short_code = code := by
  refine ⟨List.mem_of_find?_eq_some h, ?_⟩
  have := List.find?_some h
  simpa [beq_iff_eq] using this

theorem getLinkByHash_some {linkHash : String} {t : Table} {r : Row}
    (h : getLinkByHash linkHash t = some r) :
    r ∈ t.rows ∧ r.link_hash = linkHash := by
  refine ⟨List.mem_of_find?_eq_some h, ?_⟩
  have := List.find?_some h
  simpa [beq_iff_eq] using this

theorem find?_append_right {p : Row → Bool} {l1 l2 : List Row}
    (h : ∀ r ∈ l1, p r = false) :
    (l1 ++ l2).find? p = l2.find? p := by
  rw [List.find?_append]
  have : l1.find? p = none := List.find?_eq_none.mpr (by
    intro x hx
    simp [h x hx])
  rw [this]
  rfl

/-! ## Claim theorems -/

/-- C1: in the creation workflow, if the ledger call fails, the whole
workflow aborts and reports the ledger failure, and no store write
occurs: for every creation input that reaches the ledger step (validation
passed) and whose ledger step fails, the handler returns the
ledger-failure response and the store state after the workflow equals the
store state before it. -/
theorem claim1_ledger_failure_aborts_creation
    (hashFn : String → String) (baseUrl buyShortCode accessShortCode : String)
    (e : String) (body : CreateBody) (t : Table) (now : Nat)
    (hurl : falsyStr body.url = false)
    (hprice : falsyStr body.priceInERC20 = false)
    (hcreator : falsyStr body.creatorAddress = false) :
    createGatedLink hashFn baseUrl buyShortCode accessShortCode
      (.error e) body t now = (.ledgerFailed e, t) := by
  simp [createGatedLink, hurl, hprice, hcreator]

theorem claim1_witness :
    createGatedLink (fun _ => "0xhash") "" "bbbbbbb" "aaaaaaa" (.error "boom")
      { url := some "https://example.com/a", title := none,
        priceInERC20 := some "100", creatorAddress := some "0xABC",
        description := none, authorName := none,
        authorProfilePictureUrl := none, contentVignetteUrl := none,
        publicationDate := none } emptyTable 7 =
      (.ledgerFailed "boom", emptyTable) :=
  claim1_ledger_failure_aborts_creation (fun _ => "0xhash") "" "bbbbbbb"
    "aaaaaaa" "boom" _ emptyTable 7 (by decide) (by decide) (by decide)

/-- C2: in the status-transition workflow, for every linkHash with no
matching record in the store, the handler returns the NotFound error, the
ledger client is never invoked (zero ledger calls), and the store is
unchanged. -/
theorem claim2_status_not_found_no_ledger_call
    (linkHash : String) (act : Bool) (ledger : Except String String)
    (t : Table) (now : Nat) (hnone : getLinkByHash linkHash t = none) :
    patchLinkStatus linkHash (some act) ledger t now = (.notFound, t, 0) := by
  simp [patchLinkStatus, hnone]

theorem claim2_witness :
    patchLinkStatus "0xunknown" (some false) (.ok "0xtx") emptyTable 7 =
      (.notFound, emptyTable, 0) :=
  claim2_status_not_found_no_ledger_call "0xunknown" false (.ok "0xtx")
    emptyTable 7 (by decide)

/-- C10: in an enrichment refresh, the merge keeps the previously stored
title whenever the freshly fetched title is null or empty (so a title is
never overwritten to null once set), while description, authorName,
authorProfilePictureUrl, contentVignetteUrl, publicationDate and
extractedMetadata are unconditionally overwritten with the freshly
fetched values, even when those are null. -/
theorem claim10_merge_title_fallback (link : Row) (e : Extracted) :
    ((e.title = none ∨ e.title = some "") →
      (mergeMetadata link e).title = link.title) ∧
    (∀ s, e.title = some s → s ≠ "" → (mergeMetadata link e).title = some s) ∧
    (link.title ≠ none → (mergeMetadata link e).title ≠ none) ∧
    (mergeMetadata link e).description = e.description ∧
    (mergeMetadata link e).author_name = e.author_name ∧
    (mergeMetadata link e).author_profile_picture_url =
      e.author_profile_picture_url ∧
    (mergeMetadata link e).content_vignette_url = e.content_vignette_url ∧
    (mergeMetadata link e).publication_date = e.publication_date ∧
    (mergeMetadata link e).extracted_metadata = e.extracted_metadata := by
  refine ⟨?_, ?_, ?_, rfl, rfl, rfl, rfl, rfl, rfl⟩
  · rintro (h | h) <;> simp [mergeMetadata, h]
  · intro s hs hne
    simp [mergeMetadata, hs, hne]
  · intro hset
    rcases het : e.title with - | s
    · simpa [mergeMetadata, het] using hset
    · by_cases hs : s = ""
      · simpa [mergeMetadata, het, hs] using hset
      · simp [mergeMetadata, het, hs]

theorem claim10_witness :
    (mergeMetadata (insertedRow
      { original_url := "https://example.com/a", link_hash := "0xhash",
        buy_short_code := "bbbbbbb", access_short_code := "aaaaaaa",
        title := some "kept", creator_address := "0xabc",
        price_in_erc20 := "100", tx_hash := some "0xtx", is_active := some true,
        description := some "old", author_name := none,
        author_profile_picture_url := none, content_vignette_url := none,
        publication_date := none, extracted_metadata := none } "0xabc" 1 7)
      Extracted.empty).title = some "kept" :=
  (claim10_merge_title_fallback _ Extracted.empty).1 (Or.inl rfl)

/-- C6: the creatorAddress of every stored record is case-normalized
(lowercased) at insert and at replace, regardless of the casing supplied
by the caller, and the lookup of links by creator normalizes the queried
address to lowercase before querying; lowercasing the scenario input
`0xABC` yields `0xabc`. -/
theorem claim6_creator_address_normalized :
    (∀ d t now t2 i, storeGatedLink d t now = .ok (t2, i) →
      ∃ r, t2.rows = t.rows ++ [r] ∧
        r.creator_address = jsToLower d.creator_address) ∧
    (∀ d t now t2 i, replaceGatedLinkByHash d t now = .ok (t2, i) →
      ∃ r, t2.rows = t.rows.filter (fun x => !(x.link_hash == d.link_hash)) ++
        [r] ∧ r.creator_address = jsToLower d.creator_address) ∧
    (∀ a t, getLinksByCreator a t = getLinksByCreator (jsToLower a) t) ∧
    jsToLower "0xABC" = "0xabc" := by
  refine ⟨?_, ?_, ?_, by decide⟩
  · intro d t now t2 i h
    obtain ⟨-, -, hrows, -, -⟩ := storeGatedLink_ok_elim h
    exact ⟨_, hrows, rfl⟩
  · intro d t now t2 i h
    obtain ⟨-, hrows, -, -⟩ := replaceGatedLinkByHash_ok_elim h
    exact ⟨_, hrows, rfl⟩
  · intro a t
    by_cases ha : a = ""
    · subst ha
      rfl
    · rw [getLinksByCreator, getLinksByCreator, normalizeAddr_of_ne ha,
        normalizeAddr_of_ne (jsToLower_ne_empty ha), jsToLower_idem]

/-- Concrete creation input of the normalization scenario (§8): creator
supplied as `0xABC`. -/
def scenarioInput : StoreInput :=
  { original_url := "https://example.com/a", link_hash := "0xhash",
    buy_short_code := "bbbbbbb", access_short_code := "aaaaaaa",
    title := none, creator_address := "0xABC", price_in_erc20 := "100",
    tx_hash := some "0xtx", is_active := some true, description := none,
    author_name := none, author_profile_picture_url := none,
    content_vignette_url := none, publication_date := none,
    extracted_metadata := none }

theorem claim6_witness :
    (∃ r, (Table.mk [insertedRow scenarioInput "0xabc" 1 7] 2).rows =
      emptyTable.rows ++ [r] ∧ r.creator_address = jsToLower "0xABC") ∧
    getLinksByCreator "0xABC" emptyTable =
      getLinksByCreator (jsToLower "0xABC") emptyTable :=
  ⟨claim6_creator_address_normalized.1 scenarioInput emptyTable 7
      ⟨[insertedRow scenarioInput "0xabc" 1 7], 2⟩ 1 (by rfl),
    claim6_creator_address_normalized.2.2.1 "0xABC" emptyTable⟩

/-- C5: in the status-transition workflow, on ledger success the store
update modifies exactly `is_active` and `status_update_tx_hash` (plus the
`updated_at` bump) of the rows with the given linkHash: every other field
of those rows, and every other row, is unchanged, and the id sequence
does not advance. -/
theorem claim5_status_update_frame
    (linkHash : String) (act : Bool) (ledgerTx : String) (t : Table)
    (now : Nat) (r0 : Row) (hfound : getLinkByHash linkHash t = some r0) :
    ∃ t2, patchLinkStatus linkHash (some act) (.ok ledgerTx) t now =
      (.ok act ledgerTx, t2, 1) ∧
    t2.nextId = t.nextId ∧ t2.rows.length = t.rows.length ∧
    ∀ (i : Nat) (r : Row), t.rows[i]? = some r →
      (r.link_hash ≠ linkHash → t2.rows[i]? = some r) ∧
      (r.link_hash = linkHash → ∃ s, t2.rows[i]? = some s ∧
        s.is_active = act ∧ s.status_update_tx_hash = some ledgerTx ∧
        s.updated_at = now ∧
        s.id = r.id ∧ s.original_url = r.original_url ∧
        s.link_hash = r.link_hash ∧ s.buy_short_code = r.buy_short_code ∧
        s.access_short_code = r.access_short_code ∧ s.title = r.title ∧
        s.creator_address = r.creator_address ∧
        s.price_in_erc20 = r.price_in_erc20 ∧ s.tx_hash = r.tx_hash ∧
        s.description = r.description ∧ s.author_name = r.author_name ∧
        s.author_profile_picture_url = r.author_profile_picture_url ∧
        s.content_vignette_url = r.content_vignette_url ∧
        s.publication_date = r.publication_date ∧
        s.extracted_metadata = r.extracted_metadata ∧
        s.ai_social_posts = r.ai_social_posts ∧
        s.created_at = r.created_at) := by
  have hpatch : patchLinkStatus linkHash (some act) (.ok ledgerTx) t now =
      (.ok act ledgerTx,
        ⟨t.rows.map (fun r =>
          if r.link_hash == linkHash then
            { r with is_active := act,
                     status_update_tx_hash := some ledgerTx,
                     updated_at := now }
          else r), t.nextId⟩, 1) := by
    simp [patchLinkStatus, hfound, updateLinkStatus]
  refine ⟨_, hpatch, rfl, by simp, ?_⟩
  intro i r hr
  constructor
  · intro hne
    simp [List.getElem?_map, hr, hne]
  · intro heq
    refine ⟨{ r with
      is_active := act
      status_update_tx_hash := some ledgerTx
      updated_at := now }, ?_, rfl, rfl, rfl, rfl, rfl, rfl, rfl, rfl, rfl,
      rfl, rfl, rfl, rfl, rfl, rfl, rfl, rfl, rfl, rfl, rfl⟩
    simp [List.getElem?_map, hr, heq]

/-- Concrete stored row used by the scenario witnesses: a link created
for `https://example.com/a` with lowercased creator and no enrichment. -/
def sampleRow : Row :=
  { id := 1, original_url := "https://example.com/a", link_hash := "0xhash",
    buy_short_code := "bbbbbbb", access_short_code := "aaaaaaa",
    title := none, creator_address := "0xabc", price_in_erc20 := "100",
    tx_hash := some "0xtx", status_update_tx_hash := none, is_active := true,
    description := none, author_name := none,
    author_profile_picture_url := none, content_vignette_url := none,
    publication_date := none, extracted_metadata := none,
    ai_social_posts := none, created_at := 7, updated_at := 7 }

/-- Concrete one-row table used by the scenario witnesses. -/
def sampleTable : Table := ⟨[sampleRow], 2⟩

theorem claim5_witness :
    ∃ t2, patchLinkStatus "0xhash" (some false) (.ok "0xtx2") sampleTable 9 =
      (.ok false "0xtx2", t2, 1) ∧
    t2.nextId = sampleTable.nextId ∧
    t2.rows.length = sampleTable.rows.length ∧
    ∀ (i : Nat) (r : Row), sampleTable.rows[i]? = some r →
      (r.link_hash ≠ "0xhash" → t2.rows[i]? = some r) ∧
      (r.link_hash = "0xhash" → ∃ s, t2.rows[i]? = some s ∧
        s.is_active = false ∧ s.status_update_tx_hash = some "0xtx2" ∧
        s.updated_at = 9 ∧
        s.id = r.id ∧ s.original_url = r.original_url ∧
        s.link_hash = r.link_hash ∧ s.buy_short_code = r.buy_short_code ∧
        s.access_short_code = r.access_short_code ∧ s.title = r.title ∧
        s.creator_address = r.creator_address ∧
        s.price_in_erc20 = r.price_in_erc20 ∧ s.tx_hash = r.tx_hash ∧
        s.description = r.description ∧ s.author_name = r.author_name ∧
        s.author_profile_picture_url = r.author_profile_picture_url ∧
        s.content_vignette_url = r.content_vignette_url ∧
        s.publication_date = r.publication_date ∧
        s.extracted_metadata = r.extracted_metadata ∧
        s.ai_social_posts = r.ai_social_posts ∧
        s.created_at = r.created_at) :=
  claim5_status_update_frame "0xhash" false "0xtx2" sampleTable 9 sampleRow
    (by rfl)

theorem getSocial_generated_elim {code : String} {force conf : Bool}
    {modelName : String}
    {attempts : String → Except String (Option (List String))}
    {t : Table} {now : Nat} {posts : Posts} {t2 : Table}
    (h : getSocial code force conf modelName attempts t now =
      (.generated posts, t2)) :
    t2 = ⟨t.rows.map (fun x =>
      if x.buy_short_code == code then
        { x with ai_social_posts := some posts, updated_at := now }
      else x), t.nextId⟩ := by
  unfold getSocial at h
  rcases hfind : getLinkByBuyShortCode code t with - | link
  · rw [hfind] at h
    simp at h
  · rw [hfind] at h
    simp only at h
    split at h
    · simp at h
    · split at h
      · simp at h
      · split at h
        · simp at h
        · unfold updateAISocialPosts at h
          have hfind2 : t.rows.find? (fun r => r.buy_short_code == code) =
            some link := hfind
          rw [hfind2] at h
          simp only [Prod.mk.injEq, SocialResult.generated.injEq] at h
          obtain ⟨hposts, ht2⟩ := h
          rw [← ht2, hposts]

/-- C3 counterexample: the social-copy workflow persists aiSocialPosts
with an effect different from the full atomic record replace the claim
describes. With one stored row, the actual workflow leaves the row id and
the id sequence unchanged, whereas a delete-then-reinsert persist of the
same posts yields a reinserted row under a fresh id. -/
theorem claim3_counterexample :
    some (getSocial "bbbbbbb" true true "m"
        (fun _ => .ok (some ["post"])) sampleTable 9).2 ≠
      specSocialPersistReplace "bbbbbbb"
        (some (aggregateSettled (platforms.map (fun p =>
          platformGeneration p "m" 9 (.ok (some ["post"])))))) sampleTable 9 := by
  decide

/-- C3 amended: enrichment mutations performed by the metadata refresh
are full atomic record replaces (the old row under the linkHash is
deleted and a whole fresh row is reinserted under a fresh id, advancing
the id sequence); but aiSocialPosts written by the social-copy workflow
is persisted by a partial column-level update that modifies only
`ai_social_posts` (plus the `updated_at` bump) of the row with the given
buyShortCode, preserving its id and every other field and leaving every
other row and the id sequence unchanged. -/
theorem claim3_amended :
    (∀ (code : String) (force conf : Bool) (modelName : String)
      (attempts : String → Except String (Option (List String)))
      (t : Table) (now : Nat) (posts : Posts) (t2 : Table),
      getSocial code force conf modelName attempts t now =
        (.generated posts, t2) →
      t2.nextId = t.nextId ∧ t2.rows.length = t.rows.length ∧
      ∀ (i : Nat) (r : Row), t.rows[i]? = some r →
        (r.buy_short_code ≠ code → t2.rows[i]? = some r) ∧
        (r.buy_short_code = code → t2.rows[i]? =
          some { r with ai_social_posts := some posts, updated_at := now })) ∧
    (∀ (code : String) (force : Bool) (fetch : String → Extracted)
      (t : Table) (now : Nat) (resp : MetaResponse) (t2 : Table)
      (producerCalls : Nat),
      getMetadata code force fetch t now = (.refreshed resp, t2, producerCalls) →
      t2.nextId = t.nextId + 1 ∧
      ∃ lnk nr : Row, getLinkByBuyShortCode code t = some lnk ∧
        t2.rows = t.rows.filter (fun x => !(x.link_hash == lnk.link_hash)) ++
          [nr] ∧
        nr.id = t.nextId ∧ nr.link_hash = lnk.link_hash) := by
  constructor
  · intro code force conf modelName attempts t now posts t2 h
    have ht2 := getSocial_generated_elim h
    refine ⟨by rw [ht2], by rw [ht2]; simp, ?_⟩
    intro i r hr
    constructor
    · intro hne
      rw [ht2]
      simp [List.getElem?_map, hr, hne]
    · intro heq
      rw [ht2]
      simp [List.getElem?_map, hr, heq]
  · intro code force fetch t now resp t2 producerCalls h
    unfold getMetadata at h
    rcases hfind : getLinkByBuyShortCode code t with - | link
    · rw [hfind] at h
      simp at h
    · rw [hfind] at h
      simp only at h
      split at h
      · simp at h
      · split at h
        · simp at h
        · next t3 i heq =>
          obtain ⟨hne, hrows, hnext, -⟩ := replaceGatedLinkByHash_ok_elim heq
          simp only [Prod.mk.injEq, MetaResult.refreshed.injEq] at h
          obtain ⟨-, ht2, -⟩ := h
          subst ht2
          refine ⟨hnext, link,
            replacedRow (rowToReplaceInput
              (mergeMetadata link (fetch link.original_url)))
              (jsToLower (rowToReplaceInput
                (mergeMetadata link (fetch link.original_url))).creator_address)
              t.nextId now, rfl, ?_, by simp [replacedRow], ?_⟩
          · simpa [rowToReplaceInput, mergeMetadata] using hrows
          · simp [replacedRow, rowToReplaceInput, mergeMetadata]

theorem claim3_witness :
    (getSocial "bbbbbbb" true true "m" (fun _ => .ok (some ["post"]))
        sampleTable 9).2.nextId = sampleTable.nextId ∧
    (getMetadata "bbbbbbb" true (fun _ => Extracted.empty)
        sampleTable 9).2.1.nextId = sampleTable.nextId + 1 :=
  ⟨(claim3_amended.1 "bbbbbbb" true true "m" (fun _ => .ok (some ["post"]))
      sampleTable 9
      (aggregateSettled (platforms.map (fun p =>
        platformGeneration p "m" 9 (.ok (some ["post"])))))
      (getSocial "bbbbbbb" true true "m" (fun _ => .ok (some ["post"]))
        sampleTable 9).2 (by rfl)).1,
   (claim3_amended.2 "bbbbbbb" true (fun _ => Extracted.empty) sampleTable 9
      (mkMetaResponse (mergeMetadata sampleRow Extracted.empty))
      (getMetadata "bbbbbbb" true (fun _ => Extracted.empty)
        sampleTable 9).2.1 1 (by rfl)).1⟩

theorem string_append_ne_empty {s u : String} (h : s ≠ "") : s ++ u ≠ "" := by
  intro hc
  have hd := congrArg String.data hc
  rw [String.data_append] at hd
  rcases List.append_eq_nil.mp hd with ⟨h1, -⟩
  exact h (congrArg String.mk h1)

theorem getMetadata_cache_hit {code : String} {t : Table} {now : Nat}
    {fetch : String → Extracted} {r : Row}
    (hfind : getLinkByBuyShortCode code t = some r) (htitle : r.title ≠ none) :
    getMetadata code false fetch t now = (.cached (mkMetaResponse r), t, 0) := by
  unfold getMetadata
  rw [hfind]
  simp only
  rw [if_pos]
  simp [Option.isSome_iff_ne_none, htitle]

theorem getMetadata_refresh_ok {code : String} {force : Bool}
    {fetch : String → Extracted} {t : Table} {now : Nat} {r : Row}
    (wf : WellFormed t) (hfind : getLinkByBuyShortCode code t = some r)
    (hmiss : (!force && r.title.isSome) = false) :
    getMetadata code force fetch t now =
      (.refreshed (mkMetaResponse (mergeMetadata r (fetch r.original_url))),
        ⟨t.rows.filter (fun x => !(x.link_hash == r.link_hash)) ++
          [replacedRow (rowToReplaceInput (mergeMetadata r (fetch r.original_url)))
            (jsToLower r.creator_address) t.nextId now],
          t.nextId + 1⟩, 1) := by
  have hmem := (getLinkByBuyShortCode_some hfind).1
  have hcr := wf.2.2.2 r hmem
  have hrep := replaceGatedLinkByHash_ok_intro
    (rowToReplaceInput (mergeMetadata r (fetch r.original_url))) t now
    (by simpa [rowToReplaceInput, mergeMetadata] using hcr.1)
    (by
      intro x hx hxh hxb
      apply hxh
      have hx_eq : x = r := wf.2.1 x hx r hmem
        (by simpa [rowToReplaceInput, mergeMetadata] using hxb)
      simp [hx_eq, rowToReplaceInput, mergeMetadata])
    (by
      intro x hx hxh hxb
      apply hxh
      have hx_eq : x = r := wf.2.2.1 x hx r hmem
        (by simpa [rowToReplaceInput, mergeMetadata] using hxb)
      simp [hx_eq, rowToReplaceInput, mergeMetadata])
  unfold getMetadata
  rw [hfind]
  simp only
  rw [if_neg (by simp [hmiss])]
  rw [hrep]
  simp [rowToReplaceInput, mergeMetadata]

/-- C7: for every stored record whose cached title field is non-null, a
force=false enrichment read returns the stored record as-is, with no
producer invocation and no store write; hence two consecutive
force=false enrichment reads invoke the producer at most once in total
(given a well-formed store and producers that, per the placeholder
policy, always yield a non-empty title). -/
theorem claim7_cache_policy :
    (∀ (code : String) (t : Table) (now : Nat) (fetch : String → Extracted)
      (r : Row), getLinkByBuyShortCode code t = some r → r.title ≠ none →
      getMetadata code false fetch t now = (.cached (mkMetaResponse r), t, 0)) ∧
    (∀ (code : String) (t : Table) (now1 now2 : Nat)
      (fetch : String → Extracted), WellFormed t →
      (∀ u, (fetch u).title ≠ none ∧ (fetch u).title ≠ some "") →
      (getMetadata code false fetch t now1).2.2 +
        (getMetadata code false fetch
          (getMetadata code false fetch t now1).2.1 now2).2.2 ≤ 1) := by
  constructor
  · intro code t now fetch r hfind htitle
    exact getMetadata_cache_hit hfind htitle
  · intro code t now1 now2 fetch wf hgood
    rcases hfind : getLinkByBuyShortCode code t with - | r
    · have h1 : getMetadata code false fetch t now1 = (.notFound, t, 0) := by
        unfold getMetadata
        rw [hfind]
      have h2 : getMetadata code false fetch t now2 = (.notFound, t, 0) := by
        unfold getMetadata
        rw [hfind]
      rw [h1]
      simp only
      rw [h2]
      simp
    · by_cases htitle : r.title = none
      · have h1 := @getMetadata_refresh_ok code false fetch t now1 r
          wf hfind (by simp [htitle])
        rw [h1]
        simp only
        obtain ⟨ht1, ht2⟩ := hgood r.original_url
        rcases hft : (fetch r.original_url).title with - | s
        · exact absurd hft ht1
        · have hs : s ≠ "" := fun hc => ht2 (by rw [hft, hc])
          have hbc := (getLinkByBuyShortCode_some hfind).2
          have hfind2 : getLinkByBuyShortCode code
              (⟨t.rows.filter (fun x => !(x.link_hash == r.link_hash)) ++
                [replacedRow (rowToReplaceInput
                  (mergeMetadata r (fetch r.original_url)))
                  (jsToLower r.creator_address) t.nextId now1],
                t.nextId + 1⟩ : Table) =
              some (replacedRow (rowToReplaceInput
                (mergeMetadata r (fetch r.original_url)))
                (jsToLower r.creator_address) t.nextId now1) := by
            unfold getLinkByBuyShortCode
            simp only
            rw [find?_append_right]
            · simp [List.find?_cons, replacedRow, rowToReplaceInput,
                mergeMetadata, hbc]
            · intro x hx
              obtain ⟨hxmem, hxh⟩ := List.mem_filter.mp hx
              have hxh2 : x.link_hash ≠ r.link_hash := by simpa using hxh
              have : x.buy_short_code ≠ code := by
                intro hcontra
                apply hxh2
                have hx_eq : x = r := wf.2.1 x hxmem r
                  (getLinkByBuyShortCode_some hfind).1 (by rw [hcontra, hbc])
                rw [hx_eq]
              simpa using this
          have htitle2 : (replacedRow (rowToReplaceInput
              (mergeMetadata r (fetch r.original_url)))
              (jsToLower r.creator_address) t.nextId now1).title ≠ none := by
            simp [replacedRow, rowToReplaceInput, mergeMetadata, hft, hs]
          rw [getMetadata_cache_hit hfind2 htitle2]
          simp
      · rw [getMetadata_cache_hit hfind htitle]
        simp only
        rw [getMetadata_cache_hit hfind htitle]
        simp

/-- Stored row with a populated title, used by the cache-hit witnesses. -/
def sampleRowTitled : Row := { sampleRow with title := some "T" }

/-- One-row table whose single record has a cached title. -/
def sampleTableTitled : Table := ⟨[sampleRowTitled], 2⟩

theorem claim7_witness :
    getMetadata "bbbbbbb" false (fun _ => Extracted.empty)
        sampleTableTitled 9 =
      (.cached (mkMetaResponse sampleRowTitled), sampleTableTitled, 0) ∧
    (getMetadata "bbbbbbb" false
        (fun _ => { Extracted.empty with title := some "T2" })
        sampleTable 4).2.2 +
      (getMetadata "bbbbbbb" false
        (fun _ => { Extracted.empty with title := some "T2" })
        (getMetadata "bbbbbbb" false
          (fun _ => { Extracted.empty with title := some "T2" })
          sampleTable 4).2.1 5).2.2 ≤ 1 :=
  ⟨claim7_cache_policy.1 "bbbbbbb" sampleTableTitled 9 (fun _ => Extracted.empty)
      sampleRowTitled (by rfl) (by decide),
    claim7_cache_policy.2 "bbbbbbb" sampleTable 4 5
      (fun _ => { Extracted.empty with title := some "T2" }) (by decide)
      (fun u => ⟨by simp, by simp⟩)⟩

/-- C8: a metadata producer failure never propagates an error to the
enrichment caller: the generic fetcher degrades to a placeholder titled
from the URL, the video fetcher degrades to a placeholder titled from the
video id (or `unknown_id` when no id could be extracted), both with a
description stating that extraction failed, and an enrichment read whose
producer failed still returns a success response with a non-null title. -/
theorem claim8_producer_failure_degrades :
    (∀ url e, (getGenericPageMetadata url (.error e)).title =
        some ("Web Page at " ++ url.take 50 ++ "...") ∧
      (getGenericPageMetadata url (.error e)).description =
        some ("Could not fetch details: " ++ e)) ∧
    (∀ vid e, (getYoutubeVideoDetails (some vid) true (.error e)).title =
        some ("YouTube Video (ID: " ++ vid ++ ")") ∧
      (getYoutubeVideoDetails (some vid) true (.error e)).description =
        some ("Could not fetch details: " ++ e)) ∧
    (∀ (apiKeyConfigured : Bool) (apiResult : Except String Extracted),
      (getYoutubeVideoDetails none apiKeyConfigured apiResult).title =
        some "YouTube Video (ID: unknown_id)") ∧
    (∀ (code : String) (t : Table) (now : Nat) (e : String) (r : Row),
      WellFormed t → getLinkByBuyShortCode code t = some r →
      ∃ resp t2, getMetadata code true
          (fun u => getGenericPageMetadata u (.error e)) t now =
        (.refreshed resp, t2, 1) ∧ resp.title ≠ none) := by
  refine ⟨fun url e => ⟨rfl, rfl⟩, fun vid e => ⟨by simp [getYoutubeVideoDetails],
    by simp [getYoutubeVideoDetails]⟩, fun b res => rfl, ?_⟩
  intro code t now e r wf hfind
  refine ⟨_, _, getMetadata_refresh_ok wf hfind (by simp), ?_⟩
  have hne : ("Web Page at " ++ r.original_url.take 50 ++ "...") ≠ "" :=
    string_append_ne_empty (string_append_ne_empty (by decide))
  simp [mkMetaResponse, mergeMetadata, getGenericPageMetadata, hne]

theorem claim8_witness :
    ((getGenericPageMetadata "https://bad.example" (.error "netfail")).title =
        some ("Web Page at " ++ "https://bad.example".take 50 ++ "...") ∧
      (getGenericPageMetadata "https://bad.example" (.error "netfail")).description =
        some ("Could not fetch details: " ++ "netfail")) ∧
    (∃ resp t2, getMetadata "bbbbbbb" true
        (fun u => getGenericPageMetadata u (.error "netfail")) sampleTable 9 =
      (.refreshed resp, t2, 1) ∧ resp.title ≠ none) :=
  ⟨claim8_producer_failure_degrades.1 "https://bad.example" "netfail",
    claim8_producer_failure_degrades.2.2.2 "bbbbbbb" sampleTable 9 "netfail"
      sampleRow (by decide) (by rfl)⟩

/-- Observer projecting the creator address out of a metadata result. -/
def metaResultCreator : MetaResult → Option String
  | .cached resp => some resp.creatorAddress
  | .refreshed resp => some resp.creatorAddress
  | _ => none

/-- Creation body of the §8 scenario: creator supplied as `0xABC`, title
supplied so that the subsequent force=false enrichment read is a cache
hit. -/
def scenarioBody : CreateBody :=
  { url := some "https://example.com/a", title := some "T",
    priceInERC20 := some "100", creatorAddress := some "0xABC",
    description := none, authorName := none, authorProfilePictureUrl := none,
    contentVignetteUrl := none, publicationDate := none }

/-- C4 counterexample: CreateLink with creator `0xABC` followed by
GetEnrichment (force=false) on the returned buyShortCode yields a record
whose creatorAddress is the lowercased `0xabc`, which does not exactly
match the creation input `0xABC`. -/
theorem claim4_counterexample :
    metaResultCreator (getMetadata "bbbbbbb" false (fun _ => Extracted.empty)
        (createGatedLink (fun _ => "0xhash") "" "bbbbbbb" "aaaaaaa"
          (.ok "0xtx") scenarioBody emptyTable 7).2 8).1 = some "0xabc" ∧
      ("0xabc" : String) ≠ "0xABC" := by
  decide

/-- C4 amended: the full-record replace performed by an enrichment
refresh carries forward the immutable fields unchanged — linkHash, both
short codes, creatorAddress, price, the original createdAt and the prior
creation and status-update transaction references — overwriting only the
enrichment fields; and CreateLink followed immediately by GetEnrichment
on the returned buyShortCode (force=false) returns a record whose
immutable fields match the creation inputs, with creatorAddress equal to
the case-normalized (lowercased) creation input. -/
theorem claim4_immutable_fields :
    (∀ (code : String) (fetch : String → Extracted) (t : Table) (now : Nat)
      (r : Row), WellFormed t → getLinkByBuyShortCode code t = some r →
      ∃ resp t2 nr,
        getMetadata code true fetch t now = (.refreshed resp, t2, 1) ∧
        t2.rows = t.rows.filter (fun x => !(x.link_hash == r.link_hash)) ++
          [nr] ∧
        nr.link_hash = r.link_hash ∧ nr.buy_short_code = r.buy_short_code ∧
        nr.access_short_code = r.access_short_code ∧
        nr.creator_address = r.creator_address ∧
        nr.price_in_erc20 = r.price_in_erc20 ∧
        nr.created_at = r.created_at ∧ nr.tx_hash = r.tx_hash ∧
        nr.status_update_tx_hash = r.status_update_tx_hash ∧
        nr.is_active = r.is_active ∧
        nr.ai_social_posts = r.ai_social_posts ∧
        nr.original_url = r.original_url ∧
        nr.description = (fetch r.original_url).description ∧
        nr.author_name = (fetch r.original_url).author_name ∧
        nr.author_profile_picture_url =
          (fetch r.original_url).author_profile_picture_url ∧
        nr.content_vignette_url = (fetch r.original_url).content_vignette_url ∧
        nr.publication_date = (fetch r.original_url).publication_date ∧
        nr.extracted_metadata = (fetch r.original_url).extracted_metadata ∧
        nr.title = (mergeMetadata r (fetch r.original_url)).title) ∧
    (∀ (hashFn : String → String) (baseUrl bc ac tx : String)
      (body : CreateBody) (t : Table) (now1 now2 : Nat)
      (fetch : String → Extracted) (resp : CreateResponse) (t1 : Table),
      WellFormed t →
      createGatedLink hashFn baseUrl bc ac (.ok tx) body t now1 =
        (.created resp, t1) →
      ∃ respM, ((getMetadata bc false fetch t1 now2).1 = .cached respM ∨
          (getMetadata bc false fetch t1 now2).1 = .refreshed respM) ∧
        respM.linkId = hashFn (body.url.getD "") ∧
        respM.originalUrl = body.url.getD "" ∧
        respM.creatorAddress = jsToLower (body.creatorAddress.getD "") ∧
        respM.priceInERC20 = body.priceInERC20.getD "" ∧
        respM.buyShortCode = bc) := by
  constructor
  · intro code fetch t now r wf hfind
    have hcr := wf.2.2.2 r (getLinkByBuyShortCode_some hfind).1
    refine ⟨_, _, replacedRow (rowToReplaceInput
        (mergeMetadata r (fetch r.original_url)))
        (jsToLower r.creator_address) t.nextId now,
      getMetadata_refresh_ok wf hfind (by simp), rfl, ?_⟩
    simp [replacedRow, rowToReplaceInput, mergeMetadata, hcr.2]
  · intro hashFn baseUrl bc ac tx body t now1 now2 fetch resp t1 wf hcreate
    unfold createGatedLink at hcreate
    split at hcreate
    · simp at hcreate
    · simp only at hcreate
      split at hcreate
      · simp at hcreate
      · next t2 i heq =>
        simp only [Prod.mk.injEq, CreateResult.created.injEq] at hcreate
        obtain ⟨-, ht1⟩ := hcreate
        subst ht1
        obtain ⟨hne, huniq, hrows, -, -⟩ := storeGatedLink_ok_elim heq
        have wf1 := wellFormed_insert wf heq
        set d : StoreInput :=
          { original_url := body.url.getD ""
            link_hash := hashFn (body.url.getD "")
            buy_short_code := bc
            access_short_code := ac
            title := body.title
            creator_address := body.creatorAddress.getD ""
            price_in_erc20 := body.priceInERC20.getD ""
            tx_hash := some tx
            is_active := some true
            description := body.description
            author_name := body.authorName
            author_profile_picture_url := body.authorProfilePictureUrl
            content_vignette_url := body.contentVignetteUrl
            publication_date := body.publicationDate
            extracted_metadata := none } with hd
        have hfind : getLinkByBuyShortCode bc t2 =
            some (insertedRow d (jsToLower d.creator_address) t.nextId now1) := by
          unfold getLinkByBuyShortCode
          rw [hrows, find?_append_right]
          · simp [List.find?_cons, insertedRow, hd]
          · intro x hx
            simpa using (huniq x hx).2.1
        rcases htitle : body.title with - | s
        · have hmiss : (insertedRow d (jsToLower d.creator_address)
              t.nextId now1).title = none := by
            simp [insertedRow, hd, htitle]
          have h2 := @getMetadata_refresh_ok bc false fetch t2 now2 _
            wf1 hfind (by simp [hmiss])
          refine ⟨_, Or.inr (by rw [h2]), ?_⟩
          simp [mkMetaResponse, mergeMetadata, insertedRow, hd]
        · have h2 := @getMetadata_cache_hit bc t2 now2 fetch _ hfind
            (by simp [insertedRow, hd, htitle])
          refine ⟨_, Or.inl (by rw [h2]), ?_⟩
          simp [mkMetaResponse, insertedRow, hd]

theorem claim4_witness :
    (∃ resp t2 nr,
      getMetadata "bbbbbbb" true (fun _ => Extracted.empty) sampleTable 9 =
        (.refreshed resp, t2, 1) ∧
      t2.rows = sampleTable.rows.filter
        (fun x => !(x.link_hash == sampleRow.link_hash)) ++ [nr] ∧
      nr.link_hash = sampleRow.link_hash ∧
      nr.buy_short_code = sampleRow.buy_short_code ∧
      nr.access_short_code = sampleRow.access_short_code ∧
      nr.creator_address = sampleRow.creator_address ∧
      nr.price_in_erc20 = sampleRow.price_in_erc20 ∧
      nr.created_at = sampleRow.created_at ∧ nr.tx_hash = sampleRow.tx_hash ∧
      nr.status_update_tx_hash = sampleRow.status_update_tx_hash ∧
      nr.is_active = sampleRow.is_active ∧
      nr.ai_social_posts = sampleRow.ai_social_posts ∧
      nr.original_url = sampleRow.original_url ∧
      nr.description = (Extracted.empty).description ∧
      nr.author_name = (Extracted.empty).author_name ∧
      nr.author_profile_picture_url =
        (Extracted.empty).author_profile_picture_url ∧
      nr.content_vignette_url = (Extracted.empty).content_vignette_url ∧
      nr.publication_date = (Extracted.empty).publication_date ∧
      nr.extracted_metadata = (Extracted.empty).extracted_metadata ∧
      nr.title = (mergeMetadata sampleRow Extracted.empty).title) ∧
    (∃ respM, ((getMetadata "bbbbbbb" false (fun _ => Extracted.empty)
          (createGatedLink (fun _ => "0xhash") "" "bbbbbbb" "aaaaaaa"
            (.ok "0xtx") scenarioBody emptyTable 7).2 8).1 = .cached respM ∨
        (getMetadata "bbbbbbb" false (fun _ => Extracted.empty)
          (createGatedLink (fun _ => "0xhash") "" "bbbbbbb" "aaaaaaa"
            (.ok "0xtx") scenarioBody emptyTable 7).2 8).1 = .refreshed respM) ∧
      respM.linkId = (fun _ => "0xhash") (scenarioBody.url.getD "") ∧
      respM.originalUrl = scenarioBody.url.getD "" ∧
      respM.creatorAddress = jsToLower (scenarioBody.creatorAddress.getD "") ∧
      respM.priceInERC20 = scenarioBody.priceInERC20.getD "" ∧
      respM.buyShortCode = "bbbbbbb") :=
  ⟨claim4_immutable_fields.1 "bbbbbbb" (fun _ => Extracted.empty) sampleTable 9
      sampleRow (by decide) (by rfl),
    claim4_immutable_fields.2 (fun _ => "0xhash") "" "bbbbbbb" "aaaaaaa" "0xtx"
      scenarioBody emptyTable 7 8 (fun _ => Extracted.empty) _
      (createGatedLink (fun _ => "0xhash") "" "bbbbbbb" "aaaaaaa"
        (.ok "0xtx") scenarioBody emptyTable 7).2 (by decide) (by rfl)⟩

theorem aggregateSettled_eq (results : List (Except String PlatformResult)) :
    aggregateSettled results = results.filterMap (fun result =>
      match result with
      | .ok v => some (v.platformName, v.posts)
      | .error _ => none) := by
  have aux : ∀ (l : List (Except String PlatformResult)) (acc : Posts),
      l.foldl (fun acc result =>
        match result with
        | .ok v => acc ++ [(v.platformName, v.posts)]
        | .error _ => acc) acc =
      acc ++ l.filterMap (fun result =>
        match result with
        | .ok v => some (v.platformName, v.posts)
        | .error _ => none) := by
    intro l
    induction l with
    | nil => intro acc; simp
    | cons x xs ih =>
      intro acc
      cases x <;> simp [ih]
  simpa [aggregateSettled] using aux results []

/-- Fan-out aggregate of the social handler: the settled per-platform
results folded into the posts object. -/
def socialAggregate (modelName : String) (now : Nat)
    (attempts : String → Except String (Option (List String))) : Posts :=
  aggregateSettled (platforms.map (fun p =>
    platformGeneration p modelName now (attempts p)))

theorem socialAggregate_eq (modelName : String) (now : Nat)
    (attempts : String → Except String (Option (List String))) :
    socialAggregate modelName now attempts = platforms.filterMap (fun p =>
      match attempts p with
      | .ok texts => some (jsToLower p, (texts.getD []).map (fun s =>
          { text := s, generated_at := now, model_used := modelName }))
      | .error _ => none) := by
  rw [socialAggregate, aggregateSettled_eq, List.filterMap_map]
  apply List.filterMap_congr
  intro p hp
  cases h : attempts p <;> simp [platformGeneration, h]

theorem socialAggregate_empty_iff (modelName : String) (now : Nat)
    (attempts : String → Except String (Option (List String))) :
    socialAggregate modelName now attempts = [] ↔
      ∀ p ∈ platforms, ∃ e, attempts p = .error e := by
  rw [socialAggregate_eq, List.filterMap_eq_nil_iff]
  constructor
  · intro h p hp
    have := h p hp
    cases hatt : attempts p with
    | error e => exact ⟨e, rfl⟩
    | ok texts => rw [hatt] at this; simp at this
  · intro h p hp
    obtain ⟨e, he⟩ := h p hp
    rw [he]

theorem socialAggregate_mem {modelName : String} {now : Nat}
    {attempts : String → Except String (Option (List String))}
    {p : String} (hp : p ∈ platforms) {texts : Option (List String)}
    (hatt : attempts p = .ok texts) :
    (jsToLower p, (texts.getD []).map (fun s =>
      { text := s, generated_at := now, model_used := modelName })) ∈
      socialAggregate modelName now attempts := by
  rw [socialAggregate_eq]
  exact List.mem_filterMap.mpr ⟨p, hp, by rw [hatt]⟩

theorem socialAggregate_keys {modelName : String} {now : Nat}
    {attempts : String → Except String (Option (List String))}
    {entry : String × List Post}
    (hmem : entry ∈ socialAggregate modelName now attempts) :
    ∃ q ∈ platforms, (∃ texts, attempts q = .ok texts) ∧
      entry.1 = jsToLower q := by
  rw [socialAggregate_eq] at hmem
  obtain ⟨q, hq, hval⟩ := List.mem_filterMap.mp hmem
  cases hatt : attempts q with
  | error e =>
    rw [hatt] at hval
    simp at hval
  | ok texts =>
    rw [hatt] at hval
    simp only [Option.some.injEq] at hval
    exact ⟨q, hq, ⟨texts, hatt⟩, by rw [← hval]⟩

theorem getSocial_generated_intro {code : String} {force : Bool}
    {modelName : String}
    {attempts : String → Except String (Option (List String))}
    {t : Table} {now : Nat} {r : Row}
    (hfind : getLinkByBuyShortCode code t = some r)
    (hfresh : (!force && r.ai_social_posts.isSome) = false)
    (hne : socialAggregate modelName now attempts ≠ []) :
    getSocial code force true modelName attempts t now =
      (.generated (socialAggregate modelName now attempts),
        ⟨t.rows.map (fun x =>
          if x.buy_short_code == code then
            { x with ai_social_posts := some (socialAggregate modelName now attempts),
                     updated_at := now }
          else x), t.nextId⟩) := by
  unfold getSocial
  rw [hfind]
  simp only
  rw [if_neg (by simp [hfresh])]
  rw [if_neg (by simp)]
  rw [if_neg (by simpa [socialAggregate, List.isEmpty_iff] using hne)]
  unfold updateAISocialPosts
  have hfind2 : t.rows.find? (fun x => x.buy_short_code == code) =
    some r := hfind
  rw [hfind2]
  rfl

theorem getSocial_allFailed_intro {code : String} {force : Bool}
    {modelName : String}
    {attempts : String → Except String (Option (List String))}
    {t : Table} {now : Nat} {r : Row}
    (hfind : getLinkByBuyShortCode code t = some r)
    (hfresh : (!force && r.ai_social_posts.isSome) = false)
    (hempty : socialAggregate modelName now attempts = []) :
    getSocial code force true modelName attempts t now = (.allFailed, t) := by
  unfold getSocial
  rw [hfind]
  simp only
  rw [if_neg (by simp [hfresh])]
  rw [if_neg (by simp)]
  rw [if_pos (by simpa [socialAggregate, List.isEmpty_iff] using hempty)]

/-- C9: each per-platform generation attempt of the social handler is
isolated. Under a found record and a non-cached read, the overall call
reports the all-producers-failed error (leaving the store unchanged) if
and only if every platform attempt was rejected; and whenever at least
one platform attempt fulfills, the handler returns generated posts that
contain the fulfilled platform posts (an unparsable fulfillment
contributing an empty list) and contain no entry for any rejected
platform. -/
theorem claim9_platform_isolation
    (code : String) (force : Bool) (modelName : String)
    (attempts : String → Except String (Option (List String)))
    (t : Table) (now : Nat) (r : Row)
    (hfind : getLinkByBuyShortCode code t = some r)
    (hfresh : (!force && r.ai_social_posts.isSome) = false) :
    (getSocial code force true modelName attempts t now = (.allFailed, t) ↔
      ∀ p ∈ platforms, ∃ e, attempts p = .error e) ∧
    (∀ p ∈ platforms, ∀ texts : Option (List String), attempts p = .ok texts →
      ∃ posts t2, getSocial code force true modelName attempts t now =
          (.generated posts, t2) ∧
        (jsToLower p, (texts.getD []).map (fun s =>
          { text := s, generated_at := now, model_used := modelName })) ∈
            posts ∧
        ∀ q ∈ platforms, (∃ e, attempts q = .error e) →
          ∀ entry ∈ posts, entry.1 ≠ jsToLower q) := by
  constructor
  · constructor
    · intro h
      rw [← socialAggregate_empty_iff modelName now attempts]
      by_contra hne
      rw [getSocial_generated_intro hfind hfresh hne] at h
      simp at h
    · intro h
      exact getSocial_allFailed_intro hfind hfresh
        ((socialAggregate_empty_iff modelName now attempts).mpr h)
  · intro p hp texts hatt
    have hne : socialAggregate modelName now attempts ≠ [] := by
      intro hc
      obtain ⟨e, he⟩ :=
        (socialAggregate_empty_iff modelName now attempts).mp hc p hp
      rw [hatt] at he
      exact Except.noConfusion he
    refine ⟨socialAggregate modelName now attempts, _,
      getSocial_generated_intro hfind hfresh hne,
      socialAggregate_mem hp hatt, ?_⟩
    intro q hq hqerr entry hentry hcontra
    obtain ⟨q2, hq2, ⟨texts2, hatt2⟩, hkey⟩ := socialAggregate_keys hentry
    have hlow : jsToLower q2 = jsToLower q := by rw [← hkey, hcontra]
    have hqq : q2 = q := by
      have hq5 : q = "X" ∨ q = "Instagram" ∨ q = "Facebook" ∨
          q = "Telegram" ∨ q = "Discord" := by simpa [platforms] using hq
      have hq25 : q2 = "X" ∨ q2 = "Instagram" ∨ q2 = "Facebook" ∨
          q2 = "Telegram" ∨ q2 = "Discord" := by simpa [platforms] using hq2
      rcases hq5 with rfl | rfl | rfl | rfl | rfl <;>
        rcases hq25 with rfl | rfl | rfl | rfl | rfl <;>
          first
          | rfl
          | exact absurd hlow (by decide)
    obtain ⟨e, he⟩ := hqerr
    rw [hqq, he] at hatt2
    exact Except.noConfusion hatt2

/-- Platform attempts of the 2-of-5-failing scenario: the X and Instagram
calls are rejected, the other three fulfill with one post each. -/
def scenarioAttempts : String → Except String (Option (List String)) :=
  fun p => if p = "X" ∨ p = "Instagram" then .error "AI failure"
    else .ok (some ["hello"])

theorem claim9_witness :
    ∃ posts t2, getSocial "bbbbbbb" true true "m" scenarioAttempts
        sampleTable 9 = (.generated posts, t2) ∧
      (jsToLower "Facebook",
        ((some ["hello"] : Option (List String)).getD []).map (fun s =>
          { text := s, generated_at := 9, model_used := "m" })) ∈ posts ∧
      ∀ q ∈ platforms, (∃ e, scenarioAttempts q = .error e) →
        ∀ entry ∈ posts, entry.1 ≠ jsToLower q :=
  (claim9_platform_isolation "bbbbbbb" true "m" scenarioAttempts sampleTable 9
    sampleRow (by rfl) (by rfl)).2 "Facebook" (by decide)
    (some ["hello"]) (by rfl)

end Givabit
